import Mathlib

/-!
# Verification of the siasync reconciliation engine

Shallow embedding of `siafolder.go` (the latest version of the program, the
one exercised by `siafolder_test.go` through the `apiClient` interface) plus
the divergent `handleFileWrite` of the older `main.go` version.

Modelling conventions:
* `sf.files` (Go `map[string]string`, file path → SHA-256 checksum) is an
  association list with the usual lookup/set/erase operations.
* External collaborators (the disk, the SHA-256 function, the remote node's
  upload/delete endpoints and `GET` responses) are packaged in an `Env`
  record of response functions; the engine code is translated verbatim
  against that record.
* Every remote `Post` issued by the engine is recorded in a trace
  (`List RemoteCall`), whether or not the call succeeds, mirroring the fact
  that the Go code performs the HTTP request before inspecting the error.
* `filepath.Abs` is modelled as the identity (the engine only feeds it
  already-absolute, cleaned paths) and `filepath.Rel root p` as stripping
  the `root ++ "/"` prefix.
-/

/-- The checksum index: Go's `sf.files map[string]string`, path → digest. -/
abbrev Index := List (String × String)

/-- Map lookup: Go's `sf.files[file]` (comma-ok form). -/
def idxLookup (files : Index) (p : String) : Option String :=
  match files with
  | [] => none
  | (q, w) :: rest => if q = p then some w else idxLookup rest p

/-- Map store: Go's `sf.files[file] = checksum` (replace or append). -/
def idxSet (files : Index) (p v : String) : Index :=
  match files with
  | [] => [(p, v)]
  | (q, w) :: rest => if q = p then (p, v) :: rest else (q, w) :: idxSet rest p v

/-- Map removal: Go's `delete(sf.files, file)`. -/
def idxErase (files : Index) (p : String) : Index :=
  match files with
  | [] => []
  | (q, w) :: rest => if q = p then idxErase rest p else (q, w) :: idxErase rest p

/-- A remote call issued by the engine against the Sia node's API:
`client.Post("/renter/upload/<rel>", "source=<src>", nil)` or
`client.Post("/renter/delete/<rel>", "", nil)`. -/
inductive RemoteCall where
  | upload (rel : String) (src : String)
  | del (rel : String)
deriving DecidableEq, Repr

/-- The external world the engine runs against: disk contents, the hash
function, and the remote node's responses.  `none` in an `Option` field
models the corresponding `Get`/read returning an error. -/
structure Env where
  /-- Contents of each file on disk (`none` = unreadable / absent). -/
  disk : String → Option String
  /-- Models `crypto/sha256` as an arbitrary deterministic digest function. -/
  hash : String → String
  /-- Whether `POST /renter/upload/<rel>` succeeds for a given relative path. -/
  uploadOk : String → Bool
  /-- Whether `POST /renter/delete/<rel>` succeeds for a given relative path. -/
  deleteOk : String → Bool
  /-- Whether `os.Stat` succeeds and reports a directory for a given path. -/
  isDir : String → Bool
  /-- Response of `GET /renter/contracts`: number of contracts (`none` = error). -/
  contracts : Option Nat
  /-- Response of `GET /renter/files`: relative paths on the node (`none` = error). -/
  renterFiles : Option (List String)
  /-- Regular files discovered by `filepath.Walk` under the root (`none` = walk error). -/
  walkFiles : Option (List String)

/-- Models `filepath.Abs` — the engine only passes cleaned absolute paths. -/
def absPath (p : String) : String := p

/-- Strip a leading occurrence of `pre` from `p`, both as char lists;
`none` when `pre` is not a prefix of `p`. -/
def stripPre (pre p : List Char) : Option (List Char) :=
  match pre, p with
  | [], rest => some rest
  | _ :: _, [] => none
  | c :: pres, d :: ps => if c = d then stripPre pres ps else none

/-- Models `filepath.Rel root p`: strip the `root ++ "/"` prefix. -/
def relPath (root p : String) : String :=
  match stripPre (root.data ++ ['/']) p.data with
  | some rest => String.mk rest
  | none => p

/-- `checksumFile` (siafolder.go:106-119): open the file and hash its bytes. -/
def checksumFile (env : Env) (path : String) : Except String String :=
  match env.disk path with
  | some content => Except.ok (env.hash content)
  | none => Except.error "error opening file"

/-- `handleCreate` (siafolder.go:202-221): POST the upload; only on success
re-checksum the file and store `sf.files[file] = checksum`.  Returns the new
index, the remote calls issued, and the Go return value. -/
def handleCreate (env : Env) (root : String) (files : Index) (file : String) :
    Index × List RemoteCall × Except String Unit :=
  let abspath := absPath file
  let relpath := relPath root file
  if env.uploadOk relpath then
    match checksumFile env file with
    | Except.ok checksum =>
        (idxSet files file checksum, [RemoteCall.upload relpath abspath], Except.ok ())
    | Except.error e => (files, [RemoteCall.upload relpath abspath], Except.error e)
  else
    (files, [RemoteCall.upload relpath abspath], Except.error "error uploading")

/-- `handleRemove` (siafolder.go:224-235): POST the delete unconditionally
(no index lookup first); only on success run `delete(sf.files, file)`. -/
def handleRemove (env : Env) (root : String) (files : Index) (file : String) :
    Index × List RemoteCall × Except String Unit :=
  let relpath := relPath root file
  if env.deleteOk relpath then
    (idxErase files file, [RemoteCall.del relpath], Except.ok ())
  else
    (files, [RemoteCall.del relpath], Except.error "error removing")

/-- `handleFileWrite` (siafolder.go:171-192): checksum the file; if the path
is tracked and the digest changed, store the new digest, then delete and
re-upload the remote copy.  An untracked path falls through to `return nil`. -/
def handleFileWrite (env : Env) (root : String) (files : Index) (file : String) :
    Index × List RemoteCall × Except String Unit :=
  match checksumFile env file with
  | Except.error e => (files, [], Except.error e)
  | Except.ok checksum =>
    match idxLookup files file with
    | none => (files, [], Except.ok ())
    | some oldChecksum =>
      if oldChecksum = checksum then (files, [], Except.ok ())
      else
        let files1 := idxSet files file checksum
        let r1 := handleRemove env root files1 file
        match r1.2.2 with
        | Except.error e => (r1.1, r1.2.1, Except.error e)
        | Except.ok _ =>
          let r2 := handleCreate env root r1.1 file
          (r2.1, r1.2.1 ++ r2.2.1, r2.2.2)

/-- `handleFileWrite` of the older `main.go` version (main.go:170-198): it
additionally treats a write on an untracked path as a create (`!exists`
branch: store the digest and call `handleCreate`). -/
def handleFileWriteMain (env : Env) (root : String) (files : Index) (file : String) :
    Index × List RemoteCall × Except String Unit :=
  match checksumFile env file with
  | Except.error e => (files, [], Except.error e)
  | Except.ok checksum =>
    match idxLookup files file with
    | none =>
        let files1 := idxSet files file checksum
        let r := handleCreate env root files1 file
        (r.1, r.2.1, r.2.2)
    | some oldChecksum =>
      if oldChecksum = checksum then (files, [], Except.ok ())
      else
        let files1 := idxSet files file checksum
        let r1 := handleRemove env root files1 file
        match r1.2.2 with
        | Except.error e => (r1.1, r1.2.1, Except.error e)
        | Except.ok _ =>
          let r2 := handleCreate env root r1.1 file
          (r2.1, r1.2.1 ++ r2.2.1, r2.2.2)

/-- The flag scan of `uploadNonExisting` (siafolder.go:251-256):
`for _, siafile := range renterFiles.Files { if siafile.SiaPath == relpath { exists = true } }`. -/
def remoteHas (remote : List String) (relpath : String) : Bool :=
  match remote with
  | [] => false
  | s :: rest => if s = relpath then true else remoteHas rest relpath

/-- The `for file := range sf.files` loop of `uploadNonExisting`
(siafolder.go:246-261), iterating over a snapshot of the map's keys; the
error of `sf.handleCreate(file)` is discarded (the call's result is not
inspected), but its index mutation persists. -/
def uploadNonExistingLoop (env : Env) (root : String) (keys : List String)
    (files : Index) (remote : List String) : Index × List RemoteCall :=
  match keys with
  | [] => (files, [])
  | file :: rest =>
    if remoteHas remote (relPath root file) then
      uploadNonExistingLoop env root rest files remote
    else
      let r := handleCreate env root files file
      let rec' := uploadNonExistingLoop env root rest r.1 remote
      (rec'.1, r.2.1 ++ rec'.2)

/-- `uploadNonExisting` (siafolder.go:239-264): fetch `GET /renter/files`,
then upload every tracked file whose relative path is missing remotely.
Always returns `nil` unless the inventory fetch itself failed. -/
def uploadNonExisting (env : Env) (root : String) (files : Index) :
    Index × List RemoteCall × Except String Unit :=
  match env.renterFiles with
  | none => (files, [], Except.error "error getting renter files")
  | some remote =>
    let r := uploadNonExistingLoop env root (files.map Prod.fst) files remote
    (r.1, r.2, Except.ok ())

/-- The checksum accumulation of the `filepath.Walk` callback
(siafolder.go:71-93): for each regular file, `checksumFile` and store; any
error aborts the walk (and with it `NewSiafolder`). -/
def walkChecksums (env : Env) (walkFiles : List String) (acc : Index) :
    Except String Index :=
  match walkFiles with
  | [] => Except.ok acc
  | f :: rest =>
    match checksumFile env f with
    | Except.error e => Except.error e
    | Except.ok cks => walkChecksums env rest (idxSet acc f cks)

/-- The state a successful `NewSiafolder` returns: root path and index. -/
structure SiaFolder where
  path : String
  files : Index
deriving Repr

/-- `NewSiafolder` (siafolder.go:35-103): check `GET /renter/contracts`
(zero contracts is fatal), walk the tree computing checksums, then
`uploadNonExisting`; only afterwards does `go sf.eventWatcher()` start.
The trace records every upload/delete POST issued during construction. -/
def NewSiafolder (env : Env) (root : String) :
    Except String SiaFolder × List RemoteCall :=
  match env.contracts with
  | none => (Except.error "error getting contracts", [])
  | some n =>
    if n = 0 then
      (Except.error "you must have formed contracts to upload to Sia", [])
    else
      match env.walkFiles with
      | none => (Except.error "walk error", [])
      | some wfs =>
        match walkChecksums env wfs [] with
        | Except.error e => (Except.error e, [])
        | Except.ok files =>
          let u := uploadNonExisting env root files
          match u.2.2 with
          | Except.error e => (Except.error e, u.2.1)
          | Except.ok _ => (Except.ok ⟨root, u.1⟩, u.2.1)

/-- A raw fsnotify event: `event.Name` plus the three op bits the loop
tests (`event.Op & fsnotify.Write`, `& fsnotify.Remove`, `& fsnotify.Create`). -/
structure Event where
  name : String
  isWrite : Bool
  isRemove : Bool
  isCreate : Bool
deriving DecidableEq, Repr

/-- `log.Println(err)`: an error becomes a log line, nothing else. -/
def logErr : Except String Unit → List String
  | Except.ok _ => []
  | Except.error e => [e]

/-- One iteration of the `eventWatcher` select loop body for a received
event (siafolder.go:128-160): if `os.Stat` reports a directory, only
`watcher.Add` runs; otherwise each set op bit invokes its handler in
order, errors being logged and discarded. -/
def eventStep (env : Env) (root : String) (files : Index) (ev : Event) :
    Index × List RemoteCall × List String :=
  if env.isDir ev.name then (files, [], [])
  else
    let s1 :=
      if ev.isWrite then
        let r := handleFileWrite env root files ev.name
        (r.1, r.2.1, logErr r.2.2)
      else (files, [], [])
    let s2 :=
      if ev.isRemove then
        let r := handleRemove env root s1.1 ev.name
        (r.1, r.2.1, logErr r.2.2)
      else (s1.1, [], [])
    let s3 :=
      if ev.isCreate then
        let r := handleCreate env root s2.1 ev.name
        (r.1, r.2.1, logErr r.2.2)
      else (s2.1, [], [])
    (s3.1, s1.2.1 ++ s2.2.1 ++ s3.2.1, s1.2.2 ++ s2.2.2 ++ s3.2.2)

/-- The observable outcome of a run of the event loop over a finite event
sequence: final index, remote-call trace, logged errors, and the names of
the events the loop received and handled, in order. -/
structure LoopOut where
  files : Index
  calls : List RemoteCall
  logs : List String
  processed : List String
deriving Repr

/-- `eventWatcher` (siafolder.go:123-168) run over a finite sequence of
received events (the `closeChan` case ends the sequence).  The loop body
never returns or breaks on a handler error — each event is handled to
completion and the loop moves to the next. -/
def eventWatcher (env : Env) (root : String) (files : Index) :
    List Event → LoopOut
  | [] => ⟨files, [], [], []⟩
  | ev :: rest =>
    let s := eventStep env root files ev
    let r := eventWatcher env root s.1 rest
    ⟨r.files, s.2.1 ++ r.calls, s.2.2 ++ r.logs, ev.name :: r.processed⟩

/-- Recognizer for an upload call whose `source=` parameter is the given
absolute file path, used to count uploads issued for one particular file. -/
def isUploadOf (file : String) : RemoteCall → Bool
  | RemoteCall.upload _ src => decide (src = file)
  | RemoteCall.del _ => false

/-- A concrete environment: root `/r`, one readable file `/r/f` with
content `data`, digests modelled by the identity, all remote calls
succeeding, one contract, empty remote inventory. -/
def envW : Env where
  disk := fun p => if p = "/r/f" then some "data" else none
  hash := fun s => s
  uploadOk := fun _ => true
  deleteOk := fun _ => true
  isDir := fun _ => false
  contracts := some 1
  renterFiles := some []
  walkFiles := some ["/r/f"]

/-- `envW` with every upload and every delete failing. -/
def envFail : Env :=
  { envW with uploadOk := fun _ => false, deleteOk := fun _ => false }

/-- `envW` with every delete failing (uploads succeed). -/
def envDelFail : Env := { envW with deleteOk := fun _ => false }

/-- `envW` with every upload failing (deletes succeed). -/
def envUpFail : Env := { envW with uploadOk := fun _ => false }

/-! ## Basic index lemmas -/

theorem idxLookup_idxSet_self (files : Index) (p v : String) :
    idxLookup (idxSet files p v) p = some v := by
  induction files with
  | nil => simp [idxSet, idxLookup]
  | cons head rest ih =>
    obtain ⟨q, w⟩ := head
    by_cases h : q = p
    · simp [idxSet, idxLookup, h]
    · simp [idxSet, idxLookup, h, ih]

theorem idxLookup_idxSet_ne (files : Index) (p v q : String) (h : q ≠ p) :
    idxLookup (idxSet files p v) q = idxLookup files q := by
  have hpq : ¬ p = q := Ne.symm h
  induction files with
  | nil => simp [idxSet, idxLookup, hpq]
  | cons head rest ih =>
    obtain ⟨a, b⟩ := head
    by_cases ha : a = p
    · subst ha
      simp [idxSet, idxLookup, hpq]
    · by_cases hq : a = q <;> simp [idxSet, idxLookup, ha, hq, h, ih]

theorem idxLookup_idxErase_self (files : Index) (p : String) :
    idxLookup (idxErase files p) p = none := by
  induction files with
  | nil => simp [idxErase, idxLookup]
  | cons head rest ih =>
    obtain ⟨q, w⟩ := head
    by_cases h : q = p
    · simp [idxErase, h, ih]
    · simp [idxErase, idxLookup, h, ih]

theorem idxErase_of_lookup_none (files : Index) (p : String)
    (h : idxLookup files p = none) : idxErase files p = files := by
  induction files with
  | nil => simp [idxErase]
  | cons head rest ih =>
    obtain ⟨q, w⟩ := head
    by_cases hq : q = p
    · simp [idxLookup, hq] at h
    · simp [idxLookup, hq] at h
      simp [idxErase, hq, ih h]

theorem remoteHas_eq_true (remote : List String) (p : String) :
    remoteHas remote p = true ↔ p ∈ remote := by
  induction remote with
  | nil => simp [remoteHas]
  | cons s rest ih =>
    by_cases h : s = p
    · simp [remoteHas, h]
    · have hps : ¬ p = s := fun hh => h hh.symm
      simp [remoteHas, h, hps, ih]

theorem handleCreate_calls (env : Env) (root : String) (files : Index) (file : String) :
    (handleCreate env root files file).2.1 =
      [RemoteCall.upload (relPath root file) (absPath file)] := by
  unfold handleCreate
  by_cases h : env.uploadOk (relPath root file) = true
  · cases hc : checksumFile env file <;> simp [h, hc]
  · simp at h
    simp [h]

theorem handleCreate_lookup_ne (env : Env) (root : String) (files : Index)
    (file q : String) (h : q ≠ file) :
    idxLookup (handleCreate env root files file).1 q = idxLookup files q := by
  unfold handleCreate
  by_cases hup : env.uploadOk (relPath root file) = true
  · cases hc : checksumFile env file with
    | ok cks => simp [hup, hc, idxLookup_idxSet_ne _ _ _ _ h]
    | error e => simp [hup, hc]
  · simp at hup
    simp [hup]

theorem countP_loop_not_mem (env : Env) (root : String) (keys : List String)
    (files : Index) (remote : List String) (file : String)
    (hf : file ∉ keys) :
    ((uploadNonExistingLoop env root keys files remote).2).countP (isUploadOf file) = 0 := by
  induction keys generalizing files with
  | nil => simp [uploadNonExistingLoop]
  | cons k rest ih =>
    have hk : (k = file) = False := by
      simp
      intro hh
      exact hf (hh ▸ List.mem_cons_self _ _)
    have hrest : file ∉ rest := fun hh => hf (List.mem_cons_of_mem _ hh)
    by_cases hr : remoteHas remote (relPath root k) = true
    · simp [uploadNonExistingLoop, hr, ih _ hrest]
    · simp [uploadNonExistingLoop, hr, List.countP_append, handleCreate_calls,
        List.countP_cons, isUploadOf, absPath, hk, ih _ hrest]

theorem countP_loop_mem (env : Env) (root : String) (keys : List String)
    (files : Index) (remote : List String) (file : String)
    (hnd : keys.Nodup) (hmem : file ∈ keys) (hnr : relPath root file ∉ remote) :
    ((uploadNonExistingLoop env root keys files remote).2).countP (isUploadOf file) = 1 := by
  induction keys generalizing files with
  | nil => exact absurd hmem (List.not_mem_nil _)
  | cons k rest ih =>
    by_cases hk : k = file
    · subst hk
      have hknotin : k ∉ rest := (List.nodup_cons.mp hnd).1
      have hr : ¬ remoteHas remote (relPath root k) = true := by
        intro hh
        exact hnr ((remoteHas_eq_true remote (relPath root k)).mp hh)
      simp [uploadNonExistingLoop, hr, List.countP_append, handleCreate_calls,
        List.countP_cons, isUploadOf, absPath,
        countP_loop_not_mem env root rest _ remote k hknotin]
    · have hmem' : file ∈ rest := by
        rcases List.mem_cons.mp hmem with h | h
        · exact absurd h.symm hk
        · exact h
      have hnd' : rest.Nodup := (List.nodup_cons.mp hnd).2
      have hkf : (k = file) = False := by simp [hk]
      by_cases hr : remoteHas remote (relPath root k) = true
      · simp [uploadNonExistingLoop, hr, ih files hnd' hmem']
      · simp [uploadNonExistingLoop, hr, List.countP_append, handleCreate_calls,
          List.countP_cons, isUploadOf, absPath, hkf, ih _ hnd' hmem']

theorem loop_remote_present (env : Env) (root : String) (keys : List String)
    (files : Index) (remote : List String) (file : String)
    (hmem : relPath root file ∈ remote) :
    ((uploadNonExistingLoop env root keys files remote).2).countP (isUploadOf file) = 0 ∧
    idxLookup (uploadNonExistingLoop env root keys files remote).1 file
      = idxLookup files file := by
  induction keys generalizing files with
  | nil => simp [uploadNonExistingLoop]
  | cons k rest ih =>
    by_cases hk : k = file
    · subst hk
      have hr : remoteHas remote (relPath root k) = true :=
        (remoteHas_eq_true remote (relPath root k)).mpr hmem
      simpa [uploadNonExistingLoop, hr] using ih _
    · have hkf : (k = file) = False := by simp [hk]
      by_cases hr : remoteHas remote (relPath root k) = true
      · simpa [uploadNonExistingLoop, hr] using ih _
      · have hlk : idxLookup (handleCreate env root files k).1 file = idxLookup files file :=
          handleCreate_lookup_ne env root files k file (fun hh => hk hh.symm)
        have := ih (handleCreate env root files k).1
        simp [uploadNonExistingLoop, hr, List.countP_append, handleCreate_calls,
          List.countP_cons, isUploadOf, absPath, hkf, this.1, this.2, hlk]

/-! ## Claims -/

/-- C7: if `GET /renter/contracts` reports zero active contracts,
`NewSiafolder` fails with the contracts error before the directory walk,
the baseline sync and the event loop, and the trace is empty — no upload
or delete call is ever issued. -/
theorem c7_zero_contracts_fatal (env : Env) (root : String)
    (h : env.contracts = some 0) :
    NewSiafolder env root =
      (Except.error "you must have formed contracts to upload to Sia", []) := by
  simp [NewSiafolder, h]

/-- Witness for C7 at a concrete environment reporting zero contracts. -/
theorem c7_zero_contracts_fatal_witness :
    NewSiafolder { envW with contracts := some 0 } "/r" =
      (Except.error "you must have formed contracts to upload to Sia", []) :=
  c7_zero_contracts_fatal { envW with contracts := some 0 } "/r" rfl

/-- C8: the event loop handles every received event regardless of errors:
for every environment — including ones in which every hash, upload and
delete fails — a run over `evs1 ++ evs2` is the run over `evs1` followed by
the run over `evs2` from the resulting index (no handler error aborts the
loop), and the loop receives and handles exactly the events of the
sequence, in order. -/
theorem c8_loop_never_aborts (env : Env) (root : String) (files : Index)
    (evs1 evs2 : List Event) :
    eventWatcher env root files (evs1 ++ evs2) =
      { files := (eventWatcher env root
          (eventWatcher env root files evs1).files evs2).files,
        calls := (eventWatcher env root files evs1).calls ++
          (eventWatcher env root (eventWatcher env root files evs1).files evs2).calls,
        logs := (eventWatcher env root files evs1).logs ++
          (eventWatcher env root (eventWatcher env root files evs1).files evs2).logs,
        processed := (eventWatcher env root files evs1).processed ++
          (eventWatcher env root (eventWatcher env root files evs1).files evs2).processed } ∧
    (eventWatcher env root files (evs1 ++ evs2)).processed =
      evs1.map Event.name ++ evs2.map Event.name := by
  have hsplit : ∀ (l1 l2 : List Event) (fs : Index),
      eventWatcher env root fs (l1 ++ l2) =
        { files := (eventWatcher env root (eventWatcher env root fs l1).files l2).files,
          calls := (eventWatcher env root fs l1).calls ++
            (eventWatcher env root (eventWatcher env root fs l1).files l2).calls,
          logs := (eventWatcher env root fs l1).logs ++
            (eventWatcher env root (eventWatcher env root fs l1).files l2).logs,
          processed := (eventWatcher env root fs l1).processed ++
            (eventWatcher env root (eventWatcher env root fs l1).files l2).processed } := by
    intro l1
    induction l1 with
    | nil => intro l2 fs; simp [eventWatcher]
    | cons ev rest ih => intro l2 fs; simp [eventWatcher, ih]
  have hmap : ∀ (l : List Event) (fs : Index),
      (eventWatcher env root fs l).processed = l.map Event.name := by
    intro l
    induction l with
    | nil => intro fs; rfl
    | cons ev rest ih => intro fs; simp [eventWatcher, ih]
  refine ⟨hsplit evs1 evs2 files, ?_⟩
  simp [hsplit evs1 evs2 files, hmap]

/-- Witness for C8 at a concrete run: in `envFail` every remote call
fails, yet both events of the second segment are still handled after the
failing first segment. -/
theorem c8_loop_never_aborts_witness :
    (eventWatcher envFail "/r" [("/r/f", "old")]
        ([⟨"/r/f", true, false, false⟩] ++ [⟨"/r/g", false, false, true⟩])).processed =
      ["/r/f", "/r/g"] :=
  (c8_loop_never_aborts envFail "/r" [("/r/f", "old")]
    [⟨"/r/f", true, false, false⟩] [⟨"/r/g", false, false, true⟩]).2

/-- C9: `handleCreate` and `handleRemove` are atomic with respect to the
checksum index on remote failure: a failed upload POST adds or modifies no
index entry, and a failed delete POST retains the path's entry — in both
cases the returned index is exactly the input index. -/
theorem c9_handlers_atomic_on_failure (env : Env) (root : String)
    (files : Index) (file : String)
    (hup : env.uploadOk (relPath root file) = false)
    (hdel : env.deleteOk (relPath root file) = false) :
    (handleCreate env root files file).1 = files ∧
    (handleRemove env root files file).1 = files := by
  constructor
  · simp [handleCreate, hup]
  · simp [handleRemove, hdel]

/-- Witness for C9: in `envFail` both POSTs fail and the tracked entry for
`/r/f` survives both handlers untouched. -/
theorem c9_handlers_atomic_on_failure_witness :
    (handleCreate envFail "/r" [("/r/f", "d")] "/r/f").1 = [("/r/f", "d")] ∧
    (handleRemove envFail "/r" [("/r/f", "d")] "/r/f").1 = [("/r/f", "d")] :=
  c9_handlers_atomic_on_failure envFail "/r" [("/r/f", "d")] "/r/f" rfl rfl

/-- C10: during baseline sync a failure of an individual upload issued by
`uploadNonExisting` is discarded — `sf.handleCreate(file)`'s return value is
never inspected — so `uploadNonExisting` returns success whenever the
inventory fetch itself succeeded, and `NewSiafolder` completes successfully
under the same conditions.  The statement quantifies over every `uploadOk`,
in particular environments where every upload fails. -/
theorem c10_baseline_upload_errors_discarded (env : Env) (root : String)
    (files : Index) (remote : List String)
    (h : env.renterFiles = some remote) :
    (uploadNonExisting env root files).2.2 = Except.ok () ∧
    (∀ n wfs files0, env.contracts = some n → ¬ n = 0 →
      env.walkFiles = some wfs → walkChecksums env wfs [] = Except.ok files0 →
      NewSiafolder env root =
        (Except.ok ⟨root, (uploadNonExisting env root files0).1⟩,
         (uploadNonExisting env root files0).2.1)) := by
  constructor
  · simp [uploadNonExisting, h]
  · intro n wfs files0 hc hn hw hwc
    simp [NewSiafolder, hc, hn, hw, hwc, uploadNonExisting, h]

/-- Witness for C10: every upload fails in `envUpFail`, an upload for the
untracked-remotely file `/r/f` is attempted and fails, yet the baseline
pass reports success and `NewSiafolder` succeeds. -/
theorem c10_baseline_upload_errors_discarded_witness :
    (uploadNonExisting envUpFail "/r" [("/r/f", "d")]).2.2 = Except.ok () ∧
    NewSiafolder envUpFail "/r" =
      (Except.ok ⟨"/r", (uploadNonExisting envUpFail "/r" [("/r/f", "data")]).1⟩,
       (uploadNonExisting envUpFail "/r" [("/r/f", "data")]).2.1) := by
  have h := c10_baseline_upload_errors_discarded envUpFail "/r" [("/r/f", "d")] [] rfl
  exact ⟨h.1, h.2 1 ["/r/f"] [("/r/f", "data")] rfl (by decide) rfl rfl⟩

/-- C4: on a write event for a Tracked path the engine recomputes the
digest.  If it equals the stored one the handler issues no remote call and
leaves the index unchanged; if it differs the handler issues a delete call
followed by an upload call for the path's relative path, the stored digest
becomes the new value, and the path is still tracked afterwards. -/
theorem c4_write_tracked_change_detection (env : Env) (root : String)
    (files : Index) (file old c : String)
    (htr : idxLookup files file = some old)
    (hck : checksumFile env file = Except.ok c) :
    (c = old → handleFileWrite env root files file = (files, [], Except.ok ())) ∧
    (¬ c = old → env.deleteOk (relPath root file) = true →
      env.uploadOk (relPath root file) = true →
      handleFileWrite env root files file =
        (idxSet (idxErase (idxSet files file c) file) file c,
         [RemoteCall.del (relPath root file),
          RemoteCall.upload (relPath root file) (absPath file)],
         Except.ok ()) ∧
      idxLookup (handleFileWrite env root files file).1 file = some c) := by
  constructor
  · intro heq
    subst heq
    simp [handleFileWrite, hck, htr]
  · intro hne hdel hup
    have holdc : ¬ old = c := fun hh => hne hh.symm
    have heq : handleFileWrite env root files file =
        (idxSet (idxErase (idxSet files file c) file) file c,
         [RemoteCall.del (relPath root file),
          RemoteCall.upload (relPath root file) (absPath file)],
         Except.ok ()) := by
      simp [handleFileWrite, hck, htr, holdc, handleRemove, hdel, handleCreate, hup]
    refine ⟨heq, ?_⟩
    rw [heq]
    exact idxLookup_idxSet_self _ _ _

/-- Witness for C4 at `envW`: `/r/f` is tracked with digest `old`, its
content hashes to `data`, and the handler deletes then re-uploads `f`,
leaving digest `data` in the index. -/
theorem c4_write_tracked_change_detection_witness :
    handleFileWrite envW "/r" [("/r/f", "old")] "/r/f" =
      ([("/r/f", "data")],
       [RemoteCall.del "f", RemoteCall.upload "f" "/r/f"], Except.ok ()) ∧
    idxLookup (handleFileWrite envW "/r" [("/r/f", "old")] "/r/f").1 "/r/f" = some "data" := by
  have h := (c4_write_tracked_change_detection envW "/r" [("/r/f", "old")] "/r/f"
    "old" "data" rfl rfl).2 (by decide) rfl rfl
  exact ⟨h.1.trans rfl, h.2⟩

/-- C5: during baseline sync, a discovered file (a key of the index built
by the walk) whose relative path is not in the remote inventory receives
exactly one upload call from `uploadNonExisting`; `NewSiafolder` runs this
pass before `go sf.eventWatcher()` starts. -/
theorem c5_baseline_uploads_missing_once (env : Env) (root : String)
    (files : Index) (remote : List String) (file : String)
    (h : env.renterFiles = some remote)
    (hnd : (files.map Prod.fst).Nodup)
    (hmem : file ∈ files.map Prod.fst)
    (hnr : relPath root file ∉ remote) :
    ((uploadNonExisting env root files).2.1).countP (isUploadOf file) = 1 := by
  simp only [uploadNonExisting, h]
  exact countP_loop_mem env root _ files remote file hnd hmem hnr

/-- Witness for C5: `/r/f` is on disk, the remote inventory is empty, and
the baseline pass issues exactly one upload sourced at `/r/f`. -/
theorem c5_baseline_uploads_missing_once_witness :
    ((uploadNonExisting envW "/r" [("/r/f", "d")]).2.1).countP (isUploadOf "/r/f") = 1 :=
  c5_baseline_uploads_missing_once envW "/r" [("/r/f", "d")] [] "/r/f"
    rfl (by decide) (by decide) (by decide)

/-- C6: during baseline sync, a discovered file whose relative path is
already in the remote inventory gets no upload call, and the digest the
walk recorded for it is still in the index after the pass. -/
theorem c6_baseline_existing_no_upload (env : Env) (root : String)
    (files : Index) (remote : List String) (file d : String)
    (h : env.renterFiles = some remote)
    (hd : idxLookup files file = some d)
    (hmem : relPath root file ∈ remote) :
    ((uploadNonExisting env root files).2.1).countP (isUploadOf file) = 0 ∧
    idxLookup (uploadNonExisting env root files).1 file = some d := by
  have hl := loop_remote_present env root (files.map Prod.fst) files remote file hmem
  constructor
  · simp only [uploadNonExisting, h]
    exact hl.1
  · simp only [uploadNonExisting, h]
    exact hl.2.trans hd

/-- Witness for C6: the remote inventory already holds `f`, so `/r/f`
receives no upload and keeps its walk digest `d`. -/
theorem c6_baseline_existing_no_upload_witness :
    ((uploadNonExisting { envW with renterFiles := some ["f"] } "/r"
        [("/r/f", "d")]).2.1).countP (isUploadOf "/r/f") = 0 ∧
    idxLookup (uploadNonExisting { envW with renterFiles := some ["f"] } "/r"
        [("/r/f", "d")]).1 "/r/f" = some "d" :=
  c6_baseline_existing_no_upload { envW with renterFiles := some ["f"] } "/r"
    [("/r/f", "d")] ["f"] "/r/f" "d" rfl rfl (by decide)

/-- C1 counterexample: a write event for `/r/f`, readable on disk but with
no entry in the index (state Absent), in an environment where every remote
call would succeed.  The claim asserts the engine uploads the file, stores
its digest and tracks the path; `siafolder.go`'s `handleFileWrite` instead
issues no call, leaves the index empty and returns nil. -/
theorem c1_write_absent_counterexample :
    handleFileWrite envW "/r" [] "/r/f" = ([], [], Except.ok ()) := rfl

/-- C1 amended: in the current engine (`siafolder.go`) a write event on an
Absent path is a no-op — no upload, index unchanged, nil returned; only the
older `main.go` version treats it as a create, uploading the file and
storing its digest. -/
theorem c1_write_absent_noop (env : Env) (root : String) (files : Index)
    (file c : String)
    (habs : idxLookup files file = none)
    (hck : checksumFile env file = Except.ok c) :
    handleFileWrite env root files file = (files, [], Except.ok ()) ∧
    (env.uploadOk (relPath root file) = true →
      (handleFileWriteMain env root files file).2.1 =
        [RemoteCall.upload (relPath root file) (absPath file)] ∧
      idxLookup (handleFileWriteMain env root files file).1 file = some c ∧
      (handleFileWriteMain env root files file).2.2 = Except.ok ()) := by
  constructor
  · simp [handleFileWrite, hck, habs]
  · intro hup
    refine ⟨?_, ?_, ?_⟩ <;>
      simp [handleFileWriteMain, hck, habs, handleCreate, hup, idxLookup_idxSet_self]

/-- Witness for C1 (amended) at `envW`: the current engine ignores the
write on untracked `/r/f` while the `main.go` version uploads it. -/
theorem c1_write_absent_noop_witness :
    handleFileWrite envW "/r" [] "/r/f" = ([], [], Except.ok ()) ∧
    (handleFileWriteMain envW "/r" [] "/r/f").2.1 = [RemoteCall.upload "f" "/r/f"] ∧
    idxLookup (handleFileWriteMain envW "/r" [] "/r/f").1 "/r/f" = some "data" ∧
    (handleFileWriteMain envW "/r" [] "/r/f").2.2 = Except.ok () := by
  have h := c1_write_absent_noop envW "/r" [] "/r/f" "data" rfl rfl
  exact ⟨h.1, (h.2 rfl).1.trans rfl, (h.2 rfl).2.1, (h.2 rfl).2.2⟩

/-- C2 counterexample: `/r/f` is tracked with digest `old` and now hashes
to `data`; the delete POST fails, so neither remote call has completed,
yet the index already holds the new digest `data` — refuting the claim
that the entry is updated only after both the delete and the upload
complete (`sf.files[file] = checksum` runs first, siafolder.go:180). -/
theorem c2_index_updated_before_calls_counterexample :
    handleFileWrite envDelFail "/r" [("/r/f", "old")] "/r/f" =
      ([("/r/f", "data")], [RemoteCall.del "f"], Except.error "error removing") := rfl

/-- C2 amended: in the delete-then-reupload sequence the index entry is
set to the new digest before either remote call is attempted; if the
delete fails the index already holds the new digest, and if the delete
succeeds but the upload fails the entry is absent (removed by
`handleRemove`) — in neither interrupted case does the index hold the old
digest. -/
theorem c2_index_updated_before_calls (env : Env) (root : String)
    (files : Index) (file old c : String)
    (htr : idxLookup files file = some old)
    (hck : checksumFile env file = Except.ok c)
    (hne : ¬ old = c) :
    (env.deleteOk (relPath root file) = false →
      handleFileWrite env root files file =
        (idxSet files file c, [RemoteCall.del (relPath root file)],
         Except.error "error removing")) ∧
    (env.deleteOk (relPath root file) = true →
      env.uploadOk (relPath root file) = false →
      idxLookup (handleFileWrite env root files file).1 file = none ∧
      (handleFileWrite env root files file).2.1 =
        [RemoteCall.del (relPath root file),
         RemoteCall.upload (relPath root file) (absPath file)] ∧
      (handleFileWrite env root files file).2.2 = Except.error "error uploading") := by
  constructor
  · intro hdel
    simp [handleFileWrite, hck, htr, hne, handleRemove, hdel]
  · intro hdel hup
    have heq : handleFileWrite env root files file =
        (idxErase (idxSet files file c) file,
         [RemoteCall.del (relPath root file),
          RemoteCall.upload (relPath root file) (absPath file)],
         Except.error "error uploading") := by
      simp [handleFileWrite, hck, htr, hne, handleRemove, hdel, handleCreate, hup]
    refine ⟨?_, ?_, ?_⟩ <;> rw [heq]
    exact idxLookup_idxErase_self _ _

/-- Witness for C2 (amended) at `envUpFail`: the delete succeeds, the
upload fails, and the interrupted sequence leaves no index entry for the
path (in particular not the old digest). -/
theorem c2_index_updated_before_calls_witness :
    idxLookup (handleFileWrite envUpFail "/r" [("/r/f", "old")] "/r/f").1 "/r/f" = none ∧
    (handleFileWrite envUpFail "/r" [("/r/f", "old")] "/r/f").2.1 =
      [RemoteCall.del "f", RemoteCall.upload "f" "/r/f"] ∧
    (handleFileWrite envUpFail "/r" [("/r/f", "old")] "/r/f").2.2 =
      Except.error "error uploading" := by
  have h := (c2_index_updated_before_calls envUpFail "/r" [("/r/f", "old")] "/r/f"
    "old" "data" rfl rfl (by decide)).2 rfl rfl
  exact ⟨h.1, h.2.1.trans rfl, h.2.2⟩

/-- C3 counterexample: a remove event for `/r/f`, which has no entry in
the index (state Absent).  The claim asserts no remote delete call is
issued; the loop calls `handleRemove` unconditionally and the trace
contains the delete POST for `f`. -/
theorem c3_remove_absent_counterexample :
    eventStep envW "/r" [] ⟨"/r/f", false, true, false⟩ =
      ([], [RemoteCall.del "f"], []) := rfl

/-- C3 amended: a remove event on an Absent path still issues one remote
delete call for the path's relative path (`handleRemove` never consults
the index before POSTing); the checksum index is unchanged, there being no
entry to remove. -/
theorem c3_remove_absent_still_deletes (env : Env) (root : String)
    (files : Index) (file : String)
    (habs : idxLookup files file = none) :
    (handleRemove env root files file).1 = files ∧
    (handleRemove env root files file).2.1 = [RemoteCall.del (relPath root file)] := by
  by_cases hdel : env.deleteOk (relPath root file) = true
  · simp [handleRemove, hdel, idxErase_of_lookup_none files file habs]
  · simp [handleRemove, hdel]

/-- Witness for C3 (amended) at `envW`: removing untracked `/r/f` leaves
the empty index empty but still POSTs the delete for `f`. -/
theorem c3_remove_absent_still_deletes_witness :
    (handleRemove envW "/r" [] "/r/f").1 = [] ∧
    (handleRemove envW "/r" [] "/r/f").2.1 = [RemoteCall.del "f"] := by
  have h := c3_remove_absent_still_deletes envW "/r" [] "/r/f" rfl
  exact ⟨h.1, h.2.trans rfl⟩
